import Mathlib

/-!
Shallow embedding of the python2rust orchestration engine
(src/python2rust: workflows/migration_workflow.py, workflows/build_workflow.py,
agent/state.py, agent/migration_agent.py, chains/verification_chain.py,
builders/server_tester.py), together with theorems settling the frozen
claims about its specification.

External collaborators (the LLM oracle `fix`/`verify` calls, the cargo
toolchain, the OS process layer and HTTP stack) are modelled by explicit
per-call outcome values supplied as inputs to the embedded control flow,
so that every definition is executable and every loop is structural
recursion over the list of outcomes actually observed by one run.
-/

namespace Python2Rust

/-- A candidate artifact pair, as produced by generation/fix steps:
`{rust_code, toml_content}`. -/
structure Candidate where
  rust_code : String
  toml_content : String
deriving DecidableEq, Repr

/-- A value stored under a category key of `critical_differences`.
In the code this is JSON-shaped: either a list of issue strings or a
nested mapping (e.g. `{"build": {"clippy": ...}}` built by
build_workflow.py).  `isinstance(issues, list)` branches in the source
distinguish the two. -/
inductive IssueVal where
  | issues : List String → IssueVal
  | table : List (String × String) → IssueVal
deriving DecidableEq, Repr

/-- Python `len` on a category value (list length or number of keys). -/
def IssueVal.len : IssueVal → Nat
  | .issues l => l.length
  | .table l => l.length

/-- `VerificationResult` of the data model:
`{matches, critical_differences, suggestions}`; `critical_differences`
is a mapping from category name to an `IssueVal`, modelled as an
association list preserving iteration order. -/
structure VerificationResult where
  matchesFlag : Bool
  critical_differences : List (String × IssueVal)
  suggestions : List String
deriving DecidableEq, Repr

/-- Scores are Python floats taking the values `-inf`, finite, `+inf`
in this program; every finite score the code produces is a sum of
`-1.0`/`-2.0` multiples of issue counts, so finite values are modelled
exactly by `ℤ`. -/
inductive FScore where
  | negInf
  | fin (q : ℤ)
  | posInf
deriving DecidableEq, Repr

/-- Python `>` on the float scores used by the loops. -/
def FScore.fgt : FScore → FScore → Bool
  | .posInf, .posInf => false
  | .posInf, _ => true
  | .fin _, .posInf => false
  | .fin a, .fin b => decide (b < a)
  | .fin _, .negInf => true
  | .negInf, _ => false

/-- migration_workflow.py line 142: `weight = 2.0 if category == "core" else 1.0`. -/
def categoryWeight (category : String) : ℤ :=
  if category = "core" then 2 else 1

/-- migration_workflow.py lines 132-143: running `score` after iterating
`for category, issues in differences.items(): score -= len(issues) * weight`. -/
def diffPenalty (diffs : List (String × IssueVal)) : ℤ :=
  diffs.foldl (fun s cv => s - categoryWeight cv.1 * cv.2.len) 0

/-- `MigrationWorkflow._calculate_fix_score` (migration_workflow.py
lines 130-145): `+inf` when `matches`, else the accumulated penalty. -/
def calculate_fix_score (v : VerificationResult) : FScore :=
  if v.matchesFlag then .posInf else .fin (diffPenalty v.critical_differences)

/-- Modelled from the spec, for comparison with `calculate_fix_score`:
`score = -Σ(weight(category) × |issues(category)|)` with
`weight(core) = 2.0` and `weight(other) = 1.0`, and `+∞` on `matches`. -/
def specFixScore (v : VerificationResult) : FScore :=
  if v.matchesFlag then .posInf
  else .fin (-((v.critical_differences.map
    (fun cv => (if cv.1 = "core" then (2 : ℤ) else 1) * cv.2.len)).sum))

/-- `MigrationState.update_best_result`'s score computation (state.py
lines 44-47): `score = 0`, then `score -= len(differences)` for each
category value, with no weighting and no `matches` sentinel. -/
def update_best_score (v : VerificationResult) : ℤ :=
  v.critical_differences.foldl (fun s cv => s - cv.2.len) 0

/-- The `MigrationState` ledger (state.py lines 4-24).  The fields
`successful_fixes`, `failed_fixes`, `partial_successes`,
`current_analysis`, `latest_generation`, `last_verification_result` and
`current_differences` are pass-through bookkeeping never read by the
code paths the claims concern and are omitted; `best_result` stores the
`{rust_code, toml_content, verification}` dict as a pair. -/
structure MigrationState where
  best_verification_score : ℤ
  best_result : Option (Candidate × VerificationResult)
  analysis_times : List ℤ
  generation_times : List ℤ
  verification_times : List ℤ
  fix_times : List (String × List ℤ)
  token_usage : List (String × Nat)
deriving DecidableEq, Repr

/-- The dataclass defaults: `best_verification_score = 0.0`,
`best_result = None`, empty collections. -/
def MigrationState.init : MigrationState :=
  ⟨0, none, [], [], [], [], []⟩

/-- `self.token_usage[step] = self.token_usage.get(step, 0) + tokens`
on an insertion-ordered mapping. -/
def assocAdd : List (String × Nat) → String → Nat → List (String × Nat)
  | [], k, n => [(k, n)]
  | (q, v) :: rest, k, n =>
    if q = k then (q, v + n) :: rest else (q, v) :: assocAdd rest k n

/-- `if step not in fix_times: fix_times[step] = []` followed by
`fix_times[step].append(duration)`. -/
def assocAppend : List (String × List ℤ) → String → ℤ → List (String × List ℤ)
  | [], k, d => [(k, [d])]
  | (q, l) :: rest, k, d =>
    if q = k then (q, l ++ [d]) :: rest else (q, l) :: assocAppend rest k d

/-- `MigrationState.update_metrics` (state.py lines 26-39). -/
def update_metrics (st : MigrationState) (step : String) (duration : ℤ)
    (tokens : Nat) : MigrationState :=
  let st :=
    if step = "analysis" then
      { st with analysis_times := st.analysis_times ++ [duration] }
    else if step = "generation" then
      { st with generation_times := st.generation_times ++ [duration] }
    else if step = "verification" then
      { st with verification_times := st.verification_times ++ [duration] }
    else if step.startsWith "fix_" then
      { st with fix_times := assocAppend st.fix_times step duration }
    else st
  { st with token_usage := assocAdd st.token_usage step tokens }

/-- `MigrationState.update_best_result` (state.py lines 41-55):
recompute the unweighted score and overwrite the stored best only under
Python `score > self.best_verification_score`. -/
def update_best_result (st : MigrationState) (v : VerificationResult)
    (rust_code toml_content : String) : MigrationState :=
  let score := update_best_score v
  if st.best_verification_score < score then
    { st with best_verification_score := score,
              best_result := some (⟨rust_code, toml_content⟩, v) }
  else st

/-- The outcome of one iteration of the verify/fix loop, i.e. one
`fix` call followed by one `verify` call (migration_workflow.py lines
75-116): either the iteration raised (`except Exception: continue`) or
it produced a fixed candidate together with its re-verification. -/
inductive FixAttempt where
  | raised
  | ok (cand : Candidate) (verification : VerificationResult)
deriving DecidableEq, Repr

/-- The slice of the `inputs` dict that `_apply_fixes_if_needed` reads
and writes: `rust_code`, `toml_content`, `verification`. -/
structure FixInputs where
  rust_code : String
  toml_content : String
  verification : VerificationResult
deriving DecidableEq, Repr

/-- Loop state of `_apply_fixes_if_needed`: the mutable `inputs` dict,
the local `verification_result` variable, and `best_result`/`best_score`. -/
structure FixLoopSt where
  inputs : FixInputs
  verification : VerificationResult
  best : Option (Candidate × VerificationResult)
  bestScore : FScore
deriving DecidableEq, Repr

/-- The `for attempt in range(self.max_fix_attempts)` body of
`_apply_fixes_if_needed` (migration_workflow.py lines 72-128), recursing
over the per-iteration oracle outcomes.  On a raised iteration the state
is unchanged (`continue`); on a completed iteration the score is
computed, the running best is updated under strict `>`, the `inputs`
candidate and the local verification are replaced by this iteration's,
and a `matches` re-verification returns `inputs` immediately.  On
exhaustion the best-recorded candidate (when any) overwrites `inputs`. -/
def fixLoopGo : List FixAttempt → FixLoopSt → FixInputs
  | [], st =>
    match st.best with
    | some (c, v) => ⟨c.rust_code, c.toml_content, v⟩
    | none => st.inputs
  | .raised :: rest, st => fixLoopGo rest st
  | .ok cand verif :: rest, st =>
    let score := calculate_fix_score verif
    let st1 :=
      if (score.fgt st.bestScore) then
        { st with best := some (cand, verif), bestScore := score }
      else st
    let st2 : FixLoopSt :=
      { st1 with verification := verif,
                 inputs := { st1.inputs with rust_code := cand.rust_code,
                                             toml_content := cand.toml_content } }
    if verif.matchesFlag then st2.inputs else fixLoopGo rest st2

/-- `MigrationWorkflow.__init__` sets `self.max_fix_attempts = 4`. -/
def migrationMaxFixAttempts : Nat := 4

/-- `MigrationWorkflow._apply_fixes_if_needed` (migration_workflow.py
lines 59-128).  `attempts` lists the oracle outcome of each loop
iteration in order; the loop executes at most `maxFixAttempts` of them.
If the incoming verification already matches, the inputs are returned
untouched; otherwise the loop starts from `best_result = None`,
`best_score = float(-inf)`. -/
def apply_fixes_if_needed (maxFixAttempts : Nat) (inputs : FixInputs)
    (attempts : List FixAttempt) : FixInputs :=
  if inputs.verification.matchesFlag then inputs
  else fixLoopGo (attempts.take maxFixAttempts)
    ⟨inputs, inputs.verification, none, .negInf⟩

/-- The fixed candidate and verification of each completed (non-raised)
loop iteration, in order. -/
def successes (attempts : List FixAttempt) :
    List (Candidate × VerificationResult) :=
  attempts.filterMap (fun a =>
    match a with
    | .raised => none
    | .ok c v => some (c, v))

/-- The score of a stored running best: `-inf` while `best_result` is
`None`, else its verification's score. -/
def curScore : Option (Candidate × VerificationResult) → FScore
  | none => .negInf
  | some cv => calculate_fix_score cv.2

/-- Reference fold mirroring how the loop's `best_result` evolves over
completed iterations: keep the incumbent unless strictly beaten. -/
def selBest (cur : Option (Candidate × VerificationResult)) :
    List (Candidate × VerificationResult) →
    Option (Candidate × VerificationResult)
  | [] => cur
  | cv :: rest =>
    selBest (if (calculate_fix_score cv.2).fgt (curScore cur) then some cv else cur) rest

/-- The raw JSON object parsed from the verification oracle's reply
(verification_chain.py lines 95-100): its own `matches` claim plus
`critical_differences` and `suggestions`. -/
structure RawVerification where
  matchesFlag : Bool
  critical_differences : List (String × IssueVal)
  suggestions : List String
deriving DecidableEq, Repr

/-- Result assembly of `VerificationChain.verify` (verification_chain.py
lines 100-112): `matches` is recomputed as the negation of
`any(isinstance(issues, list) and issues for issues in
critical_differences.values())`; the differences and suggestions are
passed through. -/
def verify_assemble (raw : RawVerification) : VerificationResult :=
  let has_critical_differences :=
    raw.critical_differences.any (fun cv =>
      match cv.2 with
      | .issues l => !l.isEmpty
      | .table _ => false)
  ⟨!has_critical_differences, raw.critical_differences, raw.suggestions⟩

/-- A state write performed on the shared `MigrationState` while one
`migrate()` run's chain executes: a `update_metrics` call (from the
token/timing tracker) or the `update_best_result` call made by
`_format_final_result` (migration_agent.py lines 155-159). -/
inductive AgentEvent where
  | metrics (step : String) (duration : ℤ) (tokens : Nat)
  | best (v : VerificationResult) (rust_code toml_content : String)
deriving DecidableEq, Repr

/-- Applying one state write. -/
def applyEvent (st : MigrationState) : AgentEvent → MigrationState
  | .metrics s d t => update_metrics st s d t
  | .best v r t => update_best_result st v r t

/-- The step name whose `token_usage`/timing entry an event touches. -/
def AgentEvent.stepName : AgentEvent → Option String
  | .metrics s _ _ => some s
  | .best _ _ _ => none

/-- The slice of `MigrationAgent` relevant to state lifecycle:
`self.state` and `self._is_setup` (migration_agent.py lines 32, 51). -/
structure MigrationAgent where
  state : MigrationState
  is_setup : Bool
deriving DecidableEq, Repr

/-- `MigrationAgent.__init__` (migration_agent.py lines 17-51): the one
place `self.state = MigrationState()` is executed. -/
def MigrationAgent.mk0 : MigrationAgent :=
  ⟨MigrationState.init, false⟩

/-- `MigrationAgent.migrate` (migration_agent.py lines 173-203) at the
state level: it calls `setup()` when `_is_setup` is false (setup wires
the workflows to the existing `self.state` and does not reassign it) and
then runs the chain, whose writes to the shared state are the run's
`events` in order.  No path of `migrate` reassigns `self.state`. -/
def migrate (a : MigrationAgent) (events : List AgentEvent) : MigrationAgent :=
  ⟨events.foldl applyEvent a.state, true⟩

/-- Dict lookup on the modelled `token_usage` mapping. -/
def lookupTok : List (String × Nat) → String → Option Nat
  | [], _ => none
  | (q, v) :: rest, k => if q = k then some v else lookupTok rest k

/-- `ServerTester._check_log_for_errors` (server_tester.py lines 62-86)
on a log whose current content is `lines`: collect `line.strip()` for
every line on which some `ERROR_PATTERNS` regex matches.  The regex
battery itself is abstracted as the predicate `errPat`. -/
def checkLog (errPat : String → Bool) (lines : List String) : List String :=
  (lines.filter errPat).map (fun l => l.trim)

/-- What one iteration of `_wait_for_server`'s polling loop observes:
the server log's content at that moment, whether
`process.returncode is not None`, and whether the readiness GET
returned status 200 (a non-200 status or a raised request both fall
through to the next iteration). -/
structure PollObs where
  logLines : List String
  procExited : Bool
  httpOk : Bool
deriving DecidableEq, Repr

/-- `ServerTester._wait_for_server` (server_tester.py lines 123-164).
`polls` lists the observations of the iterations that fit before
`startup_timeout` elapses; an exhausted list is the timeout.  Returns
the readiness flag and the updated `self.log_errors`.  Order per
iteration, as in the source: log-signature check first (extending
`log_errors` and failing), then the already-exited check (failing
without touching `log_errors`), then the readiness GET. -/
def waitForServer (errPat : String → Bool) :
    List PollObs → List String → Bool × List String
  | [], logErrs => (false, logErrs)
  | obs :: rest, logErrs =>
    let errs := checkLog errPat obs.logLines
    if !errs.isEmpty then (false, logErrs ++ errs)
    else if obs.procExited then (false, logErrs)
    else if obs.httpOk then (true, logErrs)
    else waitForServer errPat rest logErrs

/-- The handle-owning slice of `ServerTester`: `self.process`,
`self.log_file` and `self.log_errors`, plus `openLogs`, an
instrumentation counter of log file handles opened by this tester and
not yet closed (it lets "the log handle is closed" be stated after the
handle reference itself has been cleared). -/
structure TesterSt where
  process : Option Unit
  log_file : Option Unit
  log_errors : List String
  openLogs : Nat
deriving DecidableEq, Repr

/-- `ServerTester._stop_server` (server_tester.py lines 166-233): first
`_check_log_for_errors` (a no-op when `self.log_file` is `None`) extends
`log_errors`; then, only when `self.process` is set, the process tree is
terminated (OS effects abstracted) and the `finally` block closes the
log handle and clears both references.  `logContent` is the log's
content at this moment. -/
def stopServer (errPat : String → Bool) (logContent : List String)
    (st : TesterSt) : TesterSt :=
  let errs := if st.log_file.isSome then checkLog errPat logContent else []
  let st1 : TesterSt := { st with log_errors := st.log_errors ++ errs }
  match st1.process with
  | none => st1
  | some _ =>
    { st1 with
      openLogs := if st1.log_file.isSome then st1.openLogs - 1 else st1.openLogs,
      process := none,
      log_file := none }

/-- One `_run_test_script` execution (server_tester.py lines 235-288):
either the subprocess machinery raised, or the script completed with an
exit code and captured output, after which the log (content `logLines`)
is re-checked for signatures. -/
structure ScriptRun where
  raises : Option String
  exitCode : Int
  stdout : String
  stderr : String
  logLines : List String
deriving DecidableEq, Repr

/-- Diagnostics payload of the tuple returned by `test_server`,
mirroring the dict built on each return path. -/
inductive Diag where
  | notFound
  | notExec
  | startFail (log_file : String) (server_errors : List String)
  | script (stdout stderr : String) (exit_code : Int) (server_errors : List String)
  | scriptExc (error : String) (test_error server_errors : List String)
  | empty
deriving DecidableEq, Repr

/-- The `(success, error, details)` tuple returned by
`ServerTester.test_server`. -/
structure TestResult where
  success : Bool
  error : Option String
  diag : Diag
deriving DecidableEq, Repr

/-- How one `test_server` run unfolds, each constructor one control-flow
shape of server_tester.py lines 290-341: the two validation failures,
the spawn failure (`_run_server` raised, caught by the generic
handler), an exception raised out of the readiness wait, or a spawned
run with its poll observations, the log content read when start fails
(`failLog`) and the script execution reached on readiness. -/
inductive RunSpec where
  | validateNotFound (msg : String)
  | validateNotExec (msg : String)
  | spawnFail (msg : String)
  | waitRaises (msg : String)
  | started (polls : List PollObs) (failLog : List String) (script : ScriptRun)
deriving DecidableEq, Repr

/-- Newline-joining of modelled log content, as `read_text()` sees it. -/
def joinLines (lines : List String) : String :=
  String.intercalate "\n" lines

/-- `ServerTester.test_server` (server_tester.py lines 290-341).
`self.log_errors` is reset on entry; `_run_server` on success sets
`self.process` and `self.log_file` (opening one log handle);
`_wait_for_server` gates the script run; every path funnels through the
`finally: self._stop_server()`, whose log content at teardown time is
`stopLog`.  Returns the result tuple and the tester state after the
`finally`. -/
def test_server (errPat : String → Bool) (projectDir : String)
    (spec : RunSpec) (stopLog : List String) (st0 : TesterSt) :
    TestResult × TesterSt :=
  let st : TesterSt := { st0 with log_errors := [] }
  match spec with
  | .validateNotFound msg =>
    (⟨false, some msg, .notFound⟩, stopServer errPat stopLog st)
  | .validateNotExec msg =>
    (⟨false, some msg, .notExec⟩, stopServer errPat stopLog st)
  | .spawnFail msg =>
    (⟨false, some msg, .empty⟩, stopServer errPat stopLog st)
  | .waitRaises msg =>
    let st1 : TesterSt :=
      { st with process := some (), log_file := some (), openLogs := st.openLogs + 1 }
    (⟨false, some msg, .empty⟩, stopServer errPat stopLog st1)
  | .started polls failLog script =>
    let st1 : TesterSt :=
      { st with process := some (), log_file := some (), openLogs := st.openLogs + 1 }
    let ready := waitForServer errPat polls st1.log_errors
    let st2 : TesterSt := { st1 with log_errors := ready.2 }
    if ready.1 then
      match script.raises with
      | some m =>
        (⟨false, some ("Test script failed: " ++ m),
          .scriptExc m st2.log_errors st2.log_errors⟩,
         stopServer errPat stopLog st2)
      | none =>
        let current := checkLog errPat script.logLines
        let st3 : TesterSt := { st2 with log_errors := st2.log_errors ++ current }
        if script.exitCode = 0 && current.isEmpty then
          (⟨true, none,
            .script script.stdout script.stderr script.exitCode st3.log_errors⟩,
           stopServer errPat stopLog st3)
        else
          let base :=
            if script.stderr = "" then "Test script failed with no error message"
            else script.stderr
          let msg :=
            if st3.log_errors.isEmpty then base
            else base ++ "\nServer errors:\n" ++
              String.intercalate "\n" st3.log_errors
          (⟨false, some ("Test script failed: " ++ msg),
            .script script.stdout script.stderr script.exitCode st3.log_errors⟩,
           stopServer errPat stopLog st3)
    else
      (⟨false,
        some ("Server failed to start. Log contents:\n" ++ joinLines failLog),
        .startFail (projectDir ++ "/server.log") st2.log_errors⟩,
       stopServer errPat stopLog st2)

/-- The slice of the `inputs` dict flowing through `BuildWorkflow`
(build_workflow.py): the candidate plus the optional `build_error`,
`build_info`, `clippy_error`, `clippy_info` keys (absent = `none`).
Info payloads are modelled opaquely as strings. -/
structure BInputs where
  rust_code : String
  toml_content : String
  build_error : Option String
  build_info : Option String
  clippy_error : Option String
  clippy_info : Option String
deriving DecidableEq, Repr

/-- One iteration of a build/clippy fix sub-loop: either the iteration
raised (`except Exception: continue`) or the `fix` call completed with a
new candidate whose re-check (`cargo check` resp. `cargo clippy`)
returned `(ok, err, info)`. -/
inductive BuildFixAttempt where
  | raised
  | completed (cand : Candidate) (checkOk : Bool) (checkErr : String) (checkInfo : String)
deriving DecidableEq, Repr

/-- Whether an iteration's re-check succeeded. -/
def BuildFixAttempt.ok : BuildFixAttempt → Bool
  | .raised => false
  | .completed _ o _ _ => o

/-- `BuildWorkflow.__init__` sets `self.max_fix_attempts = 6`. -/
def buildMaxFixAttempts : Nat := 6

/-- The `for attempt in range(self.max_fix_attempts)` body of
`_apply_build_fixes_if_needed` (build_workflow.py lines 60-97): a
successful re-check installs the fixed candidate into `inputs`, drops
`build_error` and returns; a failed re-check keeps the fixed candidate
only in the loop-local `current_*` variables and overwrites
`inputs["build_error"]`; a raised iteration changes nothing. -/
def buildFixGo (inputs : BInputs) (cur_rust cur_toml : String) :
    List BuildFixAttempt → BInputs
  | [] => inputs
  | .raised :: rest => buildFixGo inputs cur_rust cur_toml rest
  | .completed cand ok err _info :: rest =>
    if ok then
      { inputs with rust_code := cand.rust_code,
                    toml_content := cand.toml_content,
                    build_error := none }
    else
      buildFixGo { inputs with build_error := some err }
        cand.rust_code cand.toml_content rest

/-- `BuildWorkflow._apply_build_fixes_if_needed` (build_workflow.py
lines 52-97): a no-op when `"build_error" not in inputs`, else the fix
sub-loop started from the inputs' candidate. -/
def apply_build_fixes_if_needed (inputs : BInputs)
    (attempts : List BuildFixAttempt) : BInputs :=
  match inputs.build_error with
  | none => inputs
  | some _ => buildFixGo inputs inputs.rust_code inputs.toml_content attempts

/-- `BuildWorkflow._run_clippy` (build_workflow.py lines 99-118).
`outcome = (ok, err, info)` is what `rust_builder.clippy` would return;
the second component of the result records whether clippy was actually
invoked (it is skipped whenever `"build_error" in inputs`). -/
def run_clippy (inputs : BInputs) (outcome : Bool × String × String) :
    BInputs × Bool :=
  match inputs.build_error with
  | some _ => (inputs, false)
  | none =>
    if outcome.1 then (inputs, true)
    else ({ inputs with clippy_error := some outcome.2.1,
                        clippy_info := some outcome.2.2 }, true)

/-- `BuildResult` (build_workflow.py lines 10-17). -/
structure BuildResult where
  success : Bool
  rust_code : String
  toml_content : String
  error : Option String
  build_info : Option String
deriving DecidableEq, Repr

/-- The clippy fix sub-loop of `_apply_clippy_fixes_if_needed`
(build_workflow.py lines 143-191): a successful re-check returns a
successful `BuildResult` carrying the fixed candidate; a failed
re-check carries the fixed candidate and error into the next iteration;
exhaustion returns failure with the current candidate and the
`Failed to fix Clippy errors` message around the last clippy error. -/
def clippyFixGo (inputs : BInputs) (cur_rust cur_toml clippy_error : String) :
    List BuildFixAttempt → BuildResult
  | [] =>
    ⟨false, cur_rust, cur_toml,
      some ("Failed to fix Clippy errors after " ++
        toString buildMaxFixAttempts ++ " attempts: " ++ clippy_error),
      inputs.clippy_info⟩
  | .raised :: rest => clippyFixGo inputs cur_rust cur_toml clippy_error rest
  | .completed cand ok err info :: rest =>
    if ok then ⟨true, cand.rust_code, cand.toml_content, none, some info⟩
    else clippyFixGo inputs cand.rust_code cand.toml_content err rest

/-- `BuildWorkflow._apply_clippy_fixes_if_needed` (build_workflow.py
lines 120-191): with a pending `build_error` it reports failure with the
inputs' candidate and that error; with no `clippy_error` it reports
success with the inputs' candidate; otherwise it runs the clippy fix
sub-loop. -/
def apply_clippy_fixes_if_needed (inputs : BInputs)
    (attempts : List BuildFixAttempt) : BuildResult :=
  match inputs.build_error with
  | some e =>
    ⟨false, inputs.rust_code, inputs.toml_content, some e, inputs.build_info⟩
  | none =>
    match inputs.clippy_error with
    | none =>
      ⟨true, inputs.rust_code, inputs.toml_content, none, inputs.clippy_info⟩
    | some ce =>
      clippyFixGo inputs inputs.rust_code inputs.toml_content ce attempts

/-- `BuildWorkflow._ensure_build_output` (build_workflow.py lines
193-211): failures pass through; on success `prepare_project` either
yields the output directory recorded into `build_info` or raises,
turning the result into a failure. -/
def ensure_build_output (r : BuildResult) (prep : Except String String) :
    BuildResult :=
  if r.success then
    match prep with
    | .ok dir => { r with build_info := some dir }
    | .error e => { r with success := false, error := some e }
  else r

/-- The `BuildWorkflow` stage after `_run_cargo_check` (whose outcome is
already reflected in `inputs.build_error`): build fix sub-loop, clippy,
clippy fix sub-loop, output preparation.  The boolean records whether
the lint (`rust_builder.clippy`) was ever invoked. -/
def buildStage (inputs : BInputs) (buildAttempts : List BuildFixAttempt)
    (clippyOutcome : Bool × String × String)
    (clippyAttempts : List BuildFixAttempt) (prep : Except String String) :
    BuildResult × Bool :=
  let i1 := apply_build_fixes_if_needed inputs buildAttempts
  let ic := run_clippy i1 clippyOutcome
  (ensure_build_output (apply_clippy_fixes_if_needed ic.1 clippyAttempts) prep,
   ic.2)

/-- The last compilation error observed across the build fix sub-loop:
each completed-but-failed iteration overwrites it, raised iterations do
not. -/
def lastBuildError (e0 : String) (attempts : List BuildFixAttempt) : String :=
  attempts.foldl (fun e a =>
    match a with
    | .raised => e
    | .completed _ _ err _ => err) e0

/-- The candidate produced by the last fix attempt that completed,
folded from a starting accumulator (raised attempts produce none). -/
def lastCompletedFrom (acc : Option Candidate)
    (attempts : List BuildFixAttempt) : Option Candidate :=
  attempts.foldl (fun a att =>
    match att with
    | .raised => a
    | .completed c _ _ _ => some c) acc

/-- The candidate produced by the last fix attempt that completed
(raised attempts produce none). -/
def lastCompleted (attempts : List BuildFixAttempt) : Option Candidate :=
  lastCompletedFrom none attempts

/-- Scenario D's starting inputs: a failed initial verification. -/
def scenarioD_inputs : FixInputs :=
  ⟨"initial rust", "initial toml",
    ⟨false, [("core", .issues ["wrong output"])], []⟩⟩

/-- Scenario D's three verify/fix iterations: re-verification scores
`-4`, `-1`, `-6` (issue counts 4, 1, 6 in a non-core category). -/
def scenarioD_attempts : List FixAttempt :=
  [.ok ⟨"rust attempt 1", "toml attempt 1"⟩
      ⟨false, [("routing", .issues ["r1", "r2", "r3", "r4"])], []⟩,
   .ok ⟨"rust attempt 2", "toml attempt 2"⟩
      ⟨false, [("routing", .issues ["r1"])], []⟩,
   .ok ⟨"rust attempt 3", "toml attempt 3"⟩
      ⟨false, [("routing", .issues ["r1", "r2", "r3", "r4", "r5", "r6"])], []⟩]

lemma foldl_sub_eq_sub_sum {α : Type} (f : α → ℤ) :
    ∀ (l : List α) (a : ℤ), l.foldl (fun s x => s - f x) a = a - (l.map f).sum
  | [], a => by simp
  | x :: l, a => by
    rw [List.foldl_cons, foldl_sub_eq_sub_sum f l (a - f x), List.map_cons,
      List.sum_cons]
    ring

lemma diffPenalty_eq (diffs : List (String × IssueVal)) :
    diffPenalty diffs =
      -((diffs.map (fun cv => categoryWeight cv.1 * cv.2.len)).sum) := by
  rw [diffPenalty, foldl_sub_eq_sub_sum]
  ring

lemma update_best_score_eq (v : VerificationResult) :
    update_best_score v =
      -(((v.critical_differences.map (fun cv => (cv.2.len : ℤ)))).sum) := by
  rw [update_best_score, foldl_sub_eq_sub_sum]
  ring

lemma update_best_score_nonpos (v : VerificationResult) :
    update_best_score v ≤ 0 := by
  rw [update_best_score_eq]
  simp only [neg_nonpos]
  refine List.sum_nonneg ?_
  intro x hx
  simp only [List.mem_map] at hx
  obtain ⟨cv, _, h⟩ := hx
  rw [← h]
  exact Int.natCast_nonneg cv.2.len

/-- C2: the fix-attempt score is `+∞` exactly when `matches` is true, and
otherwise the negated weighted issue count with weight `2.0` for the
category `"core"` and `1.0` for every other category. -/
theorem calculate_fix_score_spec (v : VerificationResult) :
    calculate_fix_score v = specFixScore v := by
  rw [calculate_fix_score, specFixScore]
  by_cases h : v.matchesFlag
  · simp [h]
  · simp only [h, if_false, diffPenalty_eq, categoryWeight]

/-- C5: the `matches` flag recomputed by `VerificationChain.verify` is
true iff every category of `critical_differences` whose value is an
issue list has an empty one. -/
theorem verify_matches_iff_no_issues (raw : RawVerification) :
    (verify_assemble raw).matchesFlag = true ↔
      ∀ cv ∈ (verify_assemble raw).critical_differences,
        ∀ l, cv.2 = IssueVal.issues l → l = [] := by
  simp only [verify_assemble, Bool.not_eq_true', List.any_eq_false]
  constructor
  · intro h cv hm l hl
    have := h cv hm
    rw [hl] at this
    simpa using this
  · intro h cv hm
    cases hv : cv.2 with
    | issues l =>
      have := h cv hm l hv
      simp [hv, this]
    | table t => simp [hv]

/-- C3 counterexample: on a verification result with a single issue in
the `"core"` category, the state ledger's score (`-1`) differs from the
VerifyFixLoop scoring function (`-2`), so `update_best_result` does not
compute the score of §4.3. -/
theorem update_best_score_differs_from_fix_score :
    FScore.fin (update_best_score
        ⟨false, [("core", IssueVal.issues ["missing endpoint"])], []⟩) ≠
      calculate_fix_score
        ⟨false, [("core", IssueVal.issues ["missing endpoint"])], []⟩ := by
  decide

/-- C3 amended: `update_best_result` scores a verification result as the
negated unweighted issue count (weight `1.0` for every category,
including `"core"`, and no `+∞` sentinel on `matches`), and it
overwrites the stored best score and candidate exactly when that score
is strictly greater than the stored best score. -/
theorem update_best_result_uniform_weight_spec (st : MigrationState)
    (v : VerificationResult) (rust_code toml_content : String) :
    update_best_result st v rust_code toml_content =
      if st.best_verification_score <
          -(((v.critical_differences.map (fun cv => (cv.2.len : ℤ)))).sum) then
        { st with
          best_verification_score :=
            -(((v.critical_differences.map (fun cv => (cv.2.len : ℤ)))).sum),
          best_result := some (⟨rust_code, toml_content⟩, v) }
      else st := by
  rw [update_best_result, update_best_score_eq]

/-- C4: starting from a freshly constructed `MigrationState`, no
sequence of `update_best_result` calls ever records a best candidate or
moves the best score: the computed score is always `≤ 0`, the initial
best is `0.0`, and the comparison is strict. -/
theorem update_best_result_never_updates_from_init
    (calls : List (VerificationResult × String × String)) :
    (calls.foldl
        (fun st c => update_best_result st c.1 c.2.1 c.2.2)
        MigrationState.init).best_result = none ∧
      (calls.foldl
        (fun st c => update_best_result st c.1 c.2.1 c.2.2)
        MigrationState.init).best_verification_score = 0 := by
  suffices h : ∀ (st : MigrationState),
      st.best_result = none → st.best_verification_score = 0 →
      (calls.foldl (fun st c => update_best_result st c.1 c.2.1 c.2.2)
        st).best_result = none ∧
      (calls.foldl (fun st c => update_best_result st c.1 c.2.1 c.2.2)
        st).best_verification_score = 0 by
    exact h MigrationState.init rfl rfl
  induction calls with
  | nil => intro st h1 h2; exact ⟨h1, h2⟩
  | cons c rest ih =>
    intro st h1 h2
    rw [List.foldl_cons]
    have hle : update_best_score c.1 ≤ 0 := update_best_score_nonpos c.1
    have hnot : ¬ st.best_verification_score < update_best_score c.1 := by
      rw [h2]; exact not_lt.mpr hle
    have : update_best_result st c.1 c.2.1 c.2.2 = st := by
      rw [update_best_result]
      simp [hnot]
    rw [this]
    exact ih st h1 h2

lemma FScore.fgt_irrefl (a : FScore) : a.fgt a = false := by
  cases a <;> simp [FScore.fgt]

lemma FScore.fgt_asymm {a b : FScore} (h : a.fgt b = true) :
    b.fgt a = false := by
  cases a <;> cases b <;> simp [FScore.fgt] at h ⊢ <;> omega

lemma FScore.fgt_le_trans {a b c : FScore} (hab : a.fgt b = false)
    (hbc : b.fgt c = false) : a.fgt c = false := by
  cases a <;> cases b <;> cases c <;> simp [FScore.fgt] at hab hbc ⊢ <;> omega

lemma calculate_fix_score_fgt_negInf (v : VerificationResult) :
    (calculate_fix_score v).fgt .negInf = true := by
  rw [calculate_fix_score]
  by_cases h : v.matchesFlag <;> simp [h, FScore.fgt]

lemma selBest_some (l : List (Candidate × VerificationResult)) :
    ∀ x, ∃ y, selBest (some x) l = some y := by
  induction l with
  | nil => intro x; exact ⟨x, rfl⟩
  | cons cv rest ih =>
    intro x
    rw [selBest]
    by_cases h : (calculate_fix_score cv.2).fgt (curScore (some x)) = true
    · rw [if_pos h]; exact ih cv
    · rw [if_neg h]; exact ih x

lemma selBest_mem (l : List (Candidate × VerificationResult)) :
    ∀ cur y, selBest cur l = some y → some y = cur ∨ y ∈ l := by
  induction l with
  | nil => intro cur y h; exact Or.inl h.symm
  | cons cv rest ih =>
    intro cur y h
    rw [selBest] at h
    rcases ih _ y h with h1 | h1
    · by_cases hc : (calculate_fix_score cv.2).fgt (curScore cur) = true
      · rw [if_pos hc] at h1
        exact Or.inr (by rw [List.mem_cons]; exact Or.inl (Option.some_inj.mp h1))
      · rw [if_neg hc] at h1
        exact Or.inl h1
    · exact Or.inr (List.mem_cons_of_mem _ h1)

lemma selBest_ge_start (l : List (Candidate × VerificationResult)) :
    ∀ cur, (curScore cur).fgt (curScore (selBest cur l)) = false := by
  induction l with
  | nil => intro cur; rw [selBest]; exact FScore.fgt_irrefl _
  | cons cv rest ih =>
    intro cur
    rw [selBest]
    by_cases hc : (calculate_fix_score cv.2).fgt (curScore cur) = true
    · rw [if_pos hc]
      exact FScore.fgt_le_trans (FScore.fgt_asymm hc) (ih (some cv))
    · rw [if_neg hc]
      exact ih cur

lemma selBest_ge_mem (l : List (Candidate × VerificationResult)) :
    ∀ cur cv, cv ∈ l →
      (calculate_fix_score cv.2).fgt (curScore (selBest cur l)) = false := by
  induction l with
  | nil => intro cur cv h; exact absurd h (List.not_mem_nil cv)
  | cons hd rest ih =>
    intro cur cv h
    rw [selBest]
    rcases List.mem_cons.mp h with h1 | h1
    · subst h1
      by_cases hc : (calculate_fix_score cv.2).fgt (curScore cur) = true
      · rw [if_pos hc]
        exact FScore.fgt_le_trans (FScore.fgt_irrefl _) (selBest_ge_start rest (some cv))
      · rw [if_neg hc]
        exact FScore.fgt_le_trans (Bool.eq_false_iff.mpr
          (fun hh => hc hh)) (selBest_ge_start rest cur)
    · exact ih _ cv h1

lemma successes_cons_raised (rest : List FixAttempt) :
    successes (.raised :: rest) = successes rest := by
  rfl

lemma successes_cons_ok (c : Candidate) (v : VerificationResult)
    (rest : List FixAttempt) :
    successes (.ok c v :: rest) = (c, v) :: successes rest := by
  rfl

lemma fixLoopGo_ok_pos (cand : Candidate) (verif : VerificationResult)
    (rest : List FixAttempt) (st : FixLoopSt)
    (hm : verif.matchesFlag = false)
    (hc : (calculate_fix_score verif).fgt st.bestScore = true) :
    fixLoopGo (.ok cand verif :: rest) st =
      fixLoopGo rest
        ⟨⟨cand.rust_code, cand.toml_content, st.inputs.verification⟩,
          verif, some (cand, verif), calculate_fix_score verif⟩ := by
  simp only [fixLoopGo, hc, if_true, hm, Bool.false_eq_true, if_false]

lemma fixLoopGo_ok_neg (cand : Candidate) (verif : VerificationResult)
    (rest : List FixAttempt) (st : FixLoopSt)
    (hm : verif.matchesFlag = false)
    (hc : ¬ (calculate_fix_score verif).fgt st.bestScore = true) :
    fixLoopGo (.ok cand verif :: rest) st =
      fixLoopGo rest
        ⟨⟨cand.rust_code, cand.toml_content, st.inputs.verification⟩,
          verif, st.best, st.bestScore⟩ := by
  simp only [fixLoopGo, hc, if_false, hm, Bool.false_eq_true]

lemma fixLoopGo_eq (attempts : List FixAttempt) :
    ∀ st : FixLoopSt,
      (∀ cv ∈ successes attempts, cv.2.matchesFlag = false) →
      st.bestScore = curScore st.best →
      fixLoopGo attempts st =
        match selBest st.best (successes attempts) with
        | some cv => ⟨cv.1.rust_code, cv.1.toml_content, cv.2⟩
        | none => st.inputs := by
  induction attempts with
  | nil =>
    intro st _ _
    rw [fixLoopGo, successes, List.filterMap_nil, selBest]
    rcases st.best with _ | cv
    · rfl
    · rfl
  | cons a rest ih =>
    intro st hall hinv
    cases a with
    | raised =>
      rw [fixLoopGo, successes_cons_raised]
      exact ih st (by rw [successes_cons_raised] at hall; exact hall) hinv
    | ok cand verif =>
      have hvm : verif.matchesFlag = false := by
        refine hall (cand, verif) ?_
        rw [successes_cons_ok]
        exact List.mem_cons_self _ _
      have hmem : ∀ cv ∈ successes rest, cv.2.matchesFlag = false := by
        intro cv hm
        refine hall cv ?_
        rw [successes_cons_ok]
        exact List.mem_cons_of_mem _ hm
      rw [successes_cons_ok, selBest,
        show curScore st.best = st.bestScore from hinv.symm]
      by_cases hc : (calculate_fix_score verif).fgt st.bestScore = true
      · rw [fixLoopGo_ok_pos cand verif rest st hvm hc, if_pos hc]
        rw [ih _ hmem rfl]
        obtain ⟨y, hy⟩ := selBest_some (successes rest) (cand, verif)
        rw [hy]
      · rw [fixLoopGo_ok_neg cand verif rest st hvm hc, if_neg hc]
        rw [ih ⟨⟨cand.rust_code, cand.toml_content, st.inputs.verification⟩,
          verif, st.best, st.bestScore⟩ hmem hinv]
        rcases hb : st.best with _ | x
        · exfalso
          rw [hinv, hb] at hc
          exact hc (calculate_fix_score_fgt_negInf verif)
        · obtain ⟨y, hy⟩ := selBest_some (successes rest) x
          rw [hy]

/-- C1: in a run of the verify/fix loop in which the initial
verification failed and no re-verification ever returns `matches`, loop
exhaustion returns the candidate of a successful fix attempt whose
computed score is the maximum over all successful attempts of the run. -/
theorem apply_fixes_returns_max_scoring_candidate
    (maxFixAttempts : Nat) (inputs : FixInputs) (attempts : List FixAttempt)
    (h0 : inputs.verification.matchesFlag = false)
    (hall : ∀ cv ∈ successes (attempts.take maxFixAttempts),
      cv.2.matchesFlag = false)
    (hne : successes (attempts.take maxFixAttempts) ≠ []) :
    ∃ cv ∈ successes (attempts.take maxFixAttempts),
      apply_fixes_if_needed maxFixAttempts inputs attempts =
        ⟨cv.1.rust_code, cv.1.toml_content, cv.2⟩ ∧
      ∀ cv2 ∈ successes (attempts.take maxFixAttempts),
        (calculate_fix_score cv2.2).fgt (calculate_fix_score cv.2) = false := by
  rw [apply_fixes_if_needed]
  simp only [h0, Bool.false_eq_true, if_false]
  rw [fixLoopGo_eq (attempts.take maxFixAttempts)
    ⟨inputs, inputs.verification, none, .negInf⟩ hall rfl]
  obtain ⟨cv0, rest, hs⟩ : ∃ cv0 rest,
      successes (attempts.take maxFixAttempts) = cv0 :: rest := by
    cases h : successes (attempts.take maxFixAttempts) with
    | nil => exact absurd h hne
    | cons a b => exact ⟨a, b, rfl⟩
  rw [hs, selBest]
  have hc0 : (calculate_fix_score cv0.2).fgt (curScore none) = true :=
    calculate_fix_score_fgt_negInf cv0.2
  rw [if_pos hc0]
  obtain ⟨y, hy⟩ := selBest_some rest cv0
  rw [hy]
  refine ⟨y, ?_, rfl, ?_⟩
  · rcases selBest_mem rest (some cv0) y hy with h1 | h1
    · rw [Option.some_inj.mp h1]
      exact List.mem_cons_self _ _
    · exact List.mem_cons_of_mem _ h1
  · intro cv2 hm2
    have hall2 : (calculate_fix_score cv2.2).fgt
        (curScore (selBest (some cv0) rest)) = false := by
      rcases List.mem_cons.mp hm2 with h2 | h2
      · rw [h2]
        exact FScore.fgt_le_trans (FScore.fgt_irrefl _)
          (selBest_ge_start rest (some cv0))
      · exact selBest_ge_mem rest (some cv0) cv2 h2
    rw [hy] at hall2
    exact hall2

/-- C1 witness: Scenario D — re-verification scores `-4`, `-1`, `-6`
across 3 attempts with `max_fix_attempts = 3`; the loop returns the
attempt-2 candidate, an attempt of maximal score. -/
theorem apply_fixes_returns_max_scoring_candidate_witness :
    apply_fixes_if_needed 3 scenarioD_inputs scenarioD_attempts =
      ⟨"rust attempt 2", "toml attempt 2",
        ⟨false, [("routing", .issues ["r1"])], []⟩⟩ ∧
    ∃ cv ∈ successes (scenarioD_attempts.take 3),
      apply_fixes_if_needed 3 scenarioD_inputs scenarioD_attempts =
        ⟨cv.1.rust_code, cv.1.toml_content, cv.2⟩ ∧
      ∀ cv2 ∈ successes (scenarioD_attempts.take 3),
        (calculate_fix_score cv2.2).fgt (calculate_fix_score cv.2) = false :=
  ⟨by decide,
   apply_fixes_returns_max_scoring_candidate 3 scenarioD_inputs
     scenarioD_attempts (by decide) (by decide) (by decide)⟩

lemma stopServer_none {st : TesterSt} (errPat : String → Bool)
    (c : List String) (hp : st.process = none) (hl : st.log_file = none) :
    stopServer errPat c st = st := by
  rcases st with ⟨p, l, le, o⟩
  simp only at hp hl
  subst hp
  subst hl
  simp [stopServer]

lemma stopServer_eq {st : TesterSt} (errPat : String → Bool)
    (c : List String) (hp : st.process = some ()) (hl : st.log_file = some ()) :
    stopServer errPat c st =
      ⟨none, none, st.log_errors ++ checkLog errPat c, st.openLogs - 1⟩ := by
  rcases st with ⟨p, l, le, o⟩
  simp only at hp hl
  subst hp
  subst hl
  simp [stopServer]

lemma test_server_started_state (errPat : String → Bool) (dir : String)
    (polls : List PollObs) (failLog : List String) (script : ScriptRun)
    (stopLog : List String) (st0 : TesterSt) :
    ∃ le, (test_server errPat dir (.started polls failLog script) stopLog st0).2 =
      stopServer errPat stopLog ⟨some (), some (), le, st0.openLogs + 1⟩ := by
  simp only [test_server]
  rcases hw : waitForServer errPat polls [] with ⟨rb, rl⟩
  cases rb with
  | false => exact ⟨rl, rfl⟩
  | true =>
    cases hrs : script.raises with
    | some m => exact ⟨rl, rfl⟩
    | none =>
      by_cases hok : script.exitCode = 0 && (checkLog errPat script.logLines).isEmpty
      · refine ⟨rl ++ checkLog errPat script.logLines, ?_⟩
        simp [hok]
      · refine ⟨rl ++ checkLog errPat script.logLines, ?_⟩
        simp [hok]

lemma waitForServer_early_exit (errPat : String → Bool) :
    ∀ (pre : List PollObs) (lines : List String) (hb : Bool)
      (rest : List PollObs) (logErrs : List String),
      (∀ o ∈ pre, checkLog errPat o.logLines = [] ∧ o.procExited = false ∧
        o.httpOk = false) →
      checkLog errPat lines = [] →
      waitForServer errPat (pre ++ ⟨lines, true, hb⟩ :: rest) logErrs =
        (false, logErrs)
  | [], lines, hb, rest, logErrs, _, hexit => by
    simp [waitForServer, hexit]
  | o :: pre, lines, hb, rest, logErrs, hpre, hexit => by
    obtain ⟨h1, h2, h3⟩ := hpre o (List.mem_cons_self o pre)
    rw [List.cons_append, waitForServer]
    simp only [h1, h2, h3, List.isEmpty_nil, Bool.not_true, Bool.false_eq_true,
      if_false]
    exact waitForServer_early_exit errPat pre lines hb rest logErrs
      (fun x hx => hpre x (List.mem_cons_of_mem o hx)) hexit

/-- C6 counterexample: a run whose process exits during the first poll
iteration and a run that exhausts its polling budget with the process
alive produce byte-identical `test_server` results — the early process
exit is not reported as a failure category distinct from the startup
timeout. -/
theorem early_exit_indistinct_from_timeout :
    test_server (fun _ => false) "project"
        (.started [⟨["booting"], true, false⟩] ["booting"]
          ⟨none, 0, "", "", []⟩) [] ⟨none, none, [], 0⟩ =
      test_server (fun _ => false) "project"
        (.started [⟨["booting"], false, false⟩] ["booting"]
          ⟨none, 0, "", "", []⟩) [] ⟨none, none, [], 0⟩ := by
  decide

/-- C6 amended: when the spawned process terminates before the readiness
timeout elapses (with no prior log-signature match or readiness
success), the probe reports exactly the same generic
`Server failed to start` failure as a startup timeout; early process
exit, startup timeout and pre-readiness log-signature failures share
one failure category rather than being reported distinctly
(spawn failures and probe script failures are still reported through
their own messages). -/
theorem early_exit_reported_as_start_failure (errPat : String → Bool)
    (dir : String) (pre : List PollObs) (lines : List String) (hb : Bool)
    (polls2 : List PollObs) (failLog : List String) (script : ScriptRun)
    (stopLog : List String) (st0 : TesterSt)
    (hpre : ∀ o ∈ pre, checkLog errPat o.logLines = [] ∧ o.procExited = false ∧
      o.httpOk = false)
    (hexit : checkLog errPat lines = []) :
    test_server errPat dir (.started (pre ++ ⟨lines, true, hb⟩ :: polls2)
        failLog script) stopLog st0 =
      test_server errPat dir (.started [] failLog script) stopLog st0 := by
  simp only [test_server]
  rw [waitForServer_early_exit errPat pre lines hb polls2 [] hpre hexit]
  rfl

/-- C6 witness: a concrete early-exit run collapsing to the timeout
run's result. -/
theorem early_exit_reported_as_start_failure_witness :
    (∀ o ∈ [PollObs.mk ["starting up"] false false],
      checkLog (fun l => l = "error") o.logLines = [] ∧ o.procExited = false ∧
        o.httpOk = false) ∧
    checkLog (fun l => l = "error") ["binding port"] = [] ∧
    test_server (fun l => l = "error") "project"
        (.started ([PollObs.mk ["starting up"] false false] ++
            ⟨["binding port"], true, false⟩ :: []) ["binding port"]
          ⟨none, 0, "out", "err", []⟩) [] ⟨none, none, [], 0⟩ =
      test_server (fun l => l = "error") "project"
        (.started [] ["binding port"] ⟨none, 0, "out", "err", []⟩) []
        ⟨none, none, [], 0⟩ :=
  ⟨by decide, by decide,
   early_exit_reported_as_start_failure (fun l => l = "error") "project"
     [PollObs.mk ["starting up"] false false] ["binding port"] false []
     ["binding port"] ⟨none, 0, "out", "err", []⟩ [] ⟨none, none, [], 0⟩
     (by decide) (by decide)⟩

lemma teardown_final {fin : TesterSt} (errPat : String → Bool)
    (hp : fin.process = none) (hl : fin.log_file = none)
    (ho : fin.openLogs = 0) :
    fin.process = none ∧ fin.log_file = none ∧ fin.openLogs = 0 ∧
      ∀ c, stopServer errPat c fin = fin :=
  ⟨hp, hl, ho, fun c => stopServer_none errPat c hp hl⟩

/-- C7: for every exit path of `test_server` on a fresh tester (normal
return, failure, or exception), the returned tester state has no process
handle, no log file reference, and no log handle left open, and a
further teardown call is a no-op. -/
theorem test_server_teardown_idempotent (errPat : String → Bool)
    (dir : String) (spec : RunSpec) (stopLog : List String) (st0 : TesterSt)
    (h1 : st0.process = none) (h2 : st0.log_file = none)
    (h3 : st0.openLogs = 0) :
    (test_server errPat dir spec stopLog st0).2.process = none ∧
    (test_server errPat dir spec stopLog st0).2.log_file = none ∧
    (test_server errPat dir spec stopLog st0).2.openLogs = 0 ∧
    ∀ c, stopServer errPat c (test_server errPat dir spec stopLog st0).2 =
      (test_server errPat dir spec stopLog st0).2 := by
  cases spec with
  | validateNotFound m =>
    have hfin : (test_server errPat dir (.validateNotFound m) stopLog st0).2 =
        { st0 with log_errors := [] } := by
      simp only [test_server]
      exact stopServer_none errPat stopLog (by simp [h1]) (by simp [h2])
    rw [hfin]
    exact teardown_final errPat (by simp [h1]) (by simp [h2]) (by simp [h3])
  | validateNotExec m =>
    have hfin : (test_server errPat dir (.validateNotExec m) stopLog st0).2 =
        { st0 with log_errors := [] } := by
      simp only [test_server]
      exact stopServer_none errPat stopLog (by simp [h1]) (by simp [h2])
    rw [hfin]
    exact teardown_final errPat (by simp [h1]) (by simp [h2]) (by simp [h3])
  | spawnFail m =>
    have hfin : (test_server errPat dir (.spawnFail m) stopLog st0).2 =
        { st0 with log_errors := [] } := by
      simp only [test_server]
      exact stopServer_none errPat stopLog (by simp [h1]) (by simp [h2])
    rw [hfin]
    exact teardown_final errPat (by simp [h1]) (by simp [h2]) (by simp [h3])
  | waitRaises m =>
    have hfin : (test_server errPat dir (.waitRaises m) stopLog st0).2 =
        ⟨none, none, [] ++ checkLog errPat stopLog, st0.openLogs + 1 - 1⟩ := by
      simp only [test_server]
      exact stopServer_eq errPat stopLog rfl rfl
    rw [hfin]
    exact teardown_final errPat rfl rfl (by simp [h3])
  | started polls failLog script =>
    obtain ⟨le, hfin⟩ :=
      test_server_started_state errPat dir polls failLog script stopLog st0
    rw [hfin, stopServer_eq errPat stopLog rfl rfl]
    exact teardown_final errPat rfl rfl (by simp [h3])

/-- C7 witness: the teardown invariants at a concrete run. -/
theorem test_server_teardown_idempotent_witness :
    (test_server (fun _ => false) "project"
        (.started [] ["log"] ⟨none, 0, "", "", []⟩) []
        ⟨none, none, [], 0⟩).2.process = none ∧
    (test_server (fun _ => false) "project"
        (.started [] ["log"] ⟨none, 0, "", "", []⟩) []
        ⟨none, none, [], 0⟩).2.log_file = none ∧
    (test_server (fun _ => false) "project"
        (.started [] ["log"] ⟨none, 0, "", "", []⟩) []
        ⟨none, none, [], 0⟩).2.openLogs = 0 ∧
    ∀ c, stopServer (fun _ => false) c (test_server (fun _ => false) "project"
        (.started [] ["log"] ⟨none, 0, "", "", []⟩) []
        ⟨none, none, [], 0⟩).2 =
      (test_server (fun _ => false) "project"
        (.started [] ["log"] ⟨none, 0, "", "", []⟩) []
        ⟨none, none, [], 0⟩).2 :=
  test_server_teardown_idempotent (fun _ => false) "project"
    (.started [] ["log"] ⟨none, 0, "", "", []⟩) [] ⟨none, none, [], 0⟩
    rfl rfl rfl

lemma buildFixGo_all_fail :
    ∀ (attempts : List BuildFixAttempt) (inputs : BInputs) (cr ct e : String),
      (∀ a ∈ attempts, a.ok = false) →
      inputs.build_error = some e →
      buildFixGo inputs cr ct attempts =
        { inputs with build_error := some (lastBuildError e attempts) }
  | [], inputs, cr, ct, e, _, he => by
    rw [buildFixGo, lastBuildError, List.foldl_nil, ← he]
  | .raised :: rest, inputs, cr, ct, e, hall, he => by
    rw [buildFixGo]
    have := buildFixGo_all_fail rest inputs cr ct e
      (fun a ha => hall a (List.mem_cons_of_mem _ ha)) he
    rw [this]
    rfl
  | .completed c ok err info :: rest, inputs, cr, ct, e, hall, he => by
    have hok : ok = false :=
      hall (.completed c ok err info) (List.mem_cons_self _ _)
    rw [buildFixGo]
    simp only [hok, Bool.false_eq_true, if_false]
    have := buildFixGo_all_fail rest { inputs with build_error := some err }
      c.rust_code c.toml_content err
      (fun a ha => hall a (List.mem_cons_of_mem _ ha)) rfl
    rw [this]
    rfl

lemma ensure_fail_id (r : BuildResult) (prep : Except String String)
    (h : r.success = false) : ensure_build_output r prep = r := by
  simp [ensure_build_output, h]

/-- C8: when the compilation fix sub-loop exhausts its attempts without
any re-check succeeding, the lint step is never invoked and the stage
reports failure carrying the last compilation error observed. -/
theorem build_exhaust_skips_clippy_and_reports_last_error
    (inputs : BInputs) (e0 : String) (battempts : List BuildFixAttempt)
    (cOut : Bool × String × String) (cAtt : List BuildFixAttempt)
    (prep : Except String String)
    (hbe : inputs.build_error = some e0)
    (hall : ∀ a ∈ battempts, a.ok = false) :
    (buildStage inputs battempts cOut cAtt prep).2 = false ∧
    (buildStage inputs battempts cOut cAtt prep).1.success = false ∧
    (buildStage inputs battempts cOut cAtt prep).1.error =
      some (lastBuildError e0 battempts) := by
  have h1 : apply_build_fixes_if_needed inputs battempts =
      { inputs with build_error := some (lastBuildError e0 battempts) } := by
    rw [apply_build_fixes_if_needed]
    rw [hbe]
    exact buildFixGo_all_fail battempts inputs inputs.rust_code
      inputs.toml_content e0 hall hbe
  simp only [buildStage, h1, run_clippy, apply_clippy_fixes_if_needed]
  rw [ensure_fail_id _ _ rfl]
  exact ⟨trivial, rfl, rfl⟩

/-- C8 witness: a concrete exhausted compilation fix sub-loop. -/
theorem build_exhaust_skips_clippy_and_reports_last_error_witness :
    (buildStage ⟨"r0", "t0", some "E0308 mismatch", some "checkinfo", none, none⟩
        [.completed ⟨"r1", "t1"⟩ false "E0433 unresolved" "info1", .raised]
        (true, "", "") [] (.ok "out")).2 = false ∧
    (buildStage ⟨"r0", "t0", some "E0308 mismatch", some "checkinfo", none, none⟩
        [.completed ⟨"r1", "t1"⟩ false "E0433 unresolved" "info1", .raised]
        (true, "", "") [] (.ok "out")).1.success = false ∧
    (buildStage ⟨"r0", "t0", some "E0308 mismatch", some "checkinfo", none, none⟩
        [.completed ⟨"r1", "t1"⟩ false "E0433 unresolved" "info1", .raised]
        (true, "", "") [] (.ok "out")).1.error =
      some (lastBuildError "E0308 mismatch"
        [.completed ⟨"r1", "t1"⟩ false "E0433 unresolved" "info1", .raised]) :=
  build_exhaust_skips_clippy_and_reports_last_error
    ⟨"r0", "t0", some "E0308 mismatch", some "checkinfo", none, none⟩
    "E0308 mismatch"
    [.completed ⟨"r1", "t1"⟩ false "E0433 unresolved" "info1", .raised]
    (true, "", "") [] (.ok "out") (by decide) (by decide)

lemma lastCompletedFrom_some (c : Candidate) :
    ∀ attempts : List BuildFixAttempt,
      lastCompletedFrom (some c) attempts =
        some ((lastCompletedFrom none attempts).getD c)
  | [] => rfl
  | .raised :: rest => by
    rw [show lastCompletedFrom (some c) (.raised :: rest) =
      lastCompletedFrom (some c) rest from rfl]
    rw [show lastCompletedFrom none (.raised :: rest) =
      lastCompletedFrom none rest from rfl]
    exact lastCompletedFrom_some c rest
  | .completed c2 ok err info :: rest => by
    rw [show lastCompletedFrom (some c) (.completed c2 ok err info :: rest) =
      lastCompletedFrom (some c2) rest from rfl]
    rw [show lastCompletedFrom none (.completed c2 ok err info :: rest) =
      lastCompletedFrom (some c2) rest from rfl]
    rw [lastCompletedFrom_some c2 rest]
    rfl

lemma clippyFixGo_all_fail :
    ∀ (attempts : List BuildFixAttempt) (inputs : BInputs) (cr ct ce : String),
      (∀ a ∈ attempts, a.ok = false) →
      clippyFixGo inputs cr ct ce attempts =
        ⟨false,
          ((lastCompletedFrom none attempts).getD ⟨cr, ct⟩).rust_code,
          ((lastCompletedFrom none attempts).getD ⟨cr, ct⟩).toml_content,
          some ("Failed to fix Clippy errors after " ++
            toString buildMaxFixAttempts ++ " attempts: " ++
            lastBuildError ce attempts),
          inputs.clippy_info⟩
  | [], inputs, cr, ct, ce, _ => rfl
  | .raised :: rest, inputs, cr, ct, ce, hall => by
    rw [clippyFixGo]
    exact clippyFixGo_all_fail rest inputs cr ct ce
      (fun a ha => hall a (List.mem_cons_of_mem _ ha))
  | .completed c2 ok err info :: rest, inputs, cr, ct, ce, hall => by
    have hok : ok = false :=
      hall (.completed c2 ok err info) (List.mem_cons_self _ _)
    rw [clippyFixGo]
    simp only [hok, Bool.false_eq_true, if_false]
    rw [clippyFixGo_all_fail rest inputs c2.rust_code c2.toml_content err
      (fun a ha => hall a (List.mem_cons_of_mem _ ha))]
    rw [show lastCompletedFrom none (.completed c2 false err info :: rest) =
      lastCompletedFrom (some c2) rest from rfl]
    rw [lastCompletedFrom_some c2 rest]
    rfl

/-- C10: when the compilation fix sub-loop exhausts without success, the
returned `BuildResult` carries the candidate as it was before any fix
attempt (failed fix attempts' candidates are discarded); when the clippy
fix sub-loop exhausts, the returned `BuildResult` carries the candidate
produced by the last fix attempt that completed (falling back to the
incoming candidate when every attempt raised). -/
theorem build_result_candidate_selection :
    (∀ (inputs : BInputs) (e0 : String) (battempts : List BuildFixAttempt)
        (cOut : Bool × String × String) (cAtt : List BuildFixAttempt)
        (prep : Except String String),
      inputs.build_error = some e0 →
      (∀ a ∈ battempts, a.ok = false) →
      (buildStage inputs battempts cOut cAtt prep).1.rust_code =
          inputs.rust_code ∧
        (buildStage inputs battempts cOut cAtt prep).1.toml_content =
          inputs.toml_content) ∧
    (∀ (inputs : BInputs) (battempts : List BuildFixAttempt)
        (cerr cinfo : String) (cAtt : List BuildFixAttempt)
        (prep : Except String String),
      inputs.build_error = none →
      inputs.clippy_error = none →
      (∀ a ∈ cAtt, a.ok = false) →
      (buildStage inputs battempts (false, cerr, cinfo) cAtt prep).1.success =
          false ∧
        (buildStage inputs battempts (false, cerr, cinfo) cAtt
            prep).1.rust_code =
          ((lastCompleted cAtt).getD
            ⟨inputs.rust_code, inputs.toml_content⟩).rust_code ∧
        (buildStage inputs battempts (false, cerr, cinfo) cAtt
            prep).1.toml_content =
          ((lastCompleted cAtt).getD
            ⟨inputs.rust_code, inputs.toml_content⟩).toml_content) := by
  constructor
  · intro inputs e0 battempts cOut cAtt prep hbe hall
    have h1 : apply_build_fixes_if_needed inputs battempts =
        { inputs with build_error := some (lastBuildError e0 battempts) } := by
      rw [apply_build_fixes_if_needed, hbe]
      exact buildFixGo_all_fail battempts inputs inputs.rust_code
        inputs.toml_content e0 hall hbe
    simp only [buildStage, h1, run_clippy, apply_clippy_fixes_if_needed]
    rw [ensure_fail_id _ _ rfl]
    exact ⟨rfl, rfl⟩
  · intro inputs battempts cerr cinfo cAtt prep hbe hce hall
    have h1 : apply_build_fixes_if_needed inputs battempts = inputs := by
      rw [apply_build_fixes_if_needed, hbe]
    simp only [buildStage, h1, run_clippy, hbe, Bool.false_eq_true, if_false,
      apply_clippy_fixes_if_needed]
    rw [clippyFixGo_all_fail cAtt _ inputs.rust_code inputs.toml_content
      cerr hall]
    rw [ensure_fail_id _ _ rfl]
    exact ⟨rfl, rfl, rfl⟩

/-- C10 witness: the two exhaustion shapes at concrete runs — a
compilation sub-loop that never recovers keeps the pre-fix candidate,
and a clippy sub-loop that never recovers keeps the last completed fix
attempt's candidate. -/
theorem build_result_candidate_selection_witness :
    ((buildStage ⟨"r0", "t0", some "boom", none, none, none⟩
        [.completed ⟨"r1", "t1"⟩ false "boom2" "i"] (true, "", "") []
        (.ok "out")).1.rust_code =
      (⟨"r0", "t0", some "boom", none, none, none⟩ : BInputs).rust_code ∧
     (buildStage ⟨"r0", "t0", some "boom", none, none, none⟩
        [.completed ⟨"r1", "t1"⟩ false "boom2" "i"] (true, "", "") []
        (.ok "out")).1.toml_content =
      (⟨"r0", "t0", some "boom", none, none, none⟩ : BInputs).toml_content) ∧
    ((buildStage ⟨"r0", "t0", none, none, none, none⟩ []
        (false, "warn", "ci")
        [.completed ⟨"rA", "tA"⟩ false "warn2" "ciA", .raised]
        (.ok "out")).1.success = false ∧
     (buildStage ⟨"r0", "t0", none, none, none, none⟩ []
        (false, "warn", "ci")
        [.completed ⟨"rA", "tA"⟩ false "warn2" "ciA", .raised]
        (.ok "out")).1.rust_code =
      ((lastCompleted [.completed ⟨"rA", "tA"⟩ false "warn2" "ciA", .raised]).getD
        ⟨"r0", "t0"⟩).rust_code ∧
     (buildStage ⟨"r0", "t0", none, none, none, none⟩ []
        (false, "warn", "ci")
        [.completed ⟨"rA", "tA"⟩ false "warn2" "ciA", .raised]
        (.ok "out")).1.toml_content =
      ((lastCompleted [.completed ⟨"rA", "tA"⟩ false "warn2" "ciA", .raised]).getD
        ⟨"r0", "t0"⟩).toml_content) :=
  ⟨build_result_candidate_selection.1
     ⟨"r0", "t0", some "boom", none, none, none⟩ "boom"
     [.completed ⟨"r1", "t1"⟩ false "boom2" "i"] (true, "", "") [] (.ok "out")
     (by decide) (by decide),
   build_result_candidate_selection.2
     ⟨"r0", "t0", none, none, none, none⟩ [] "warn" "ci"
     [.completed ⟨"rA", "tA"⟩ false "warn2" "ciA", .raised] (.ok "out")
     (by decide) (by decide) (by decide)⟩

lemma lookupTok_assocAdd_ne {k s : String} (h : k ≠ s) :
    ∀ m : List (String × Nat), ∀ n : Nat,
      lookupTok (assocAdd m k n) s = lookupTok m s
  | [], n => by simp [assocAdd, lookupTok, h]
  | (q, v) :: rest, n => by
    by_cases hq : q = k
    · subst hq
      simp [assocAdd, lookupTok, h]
    · simp only [assocAdd, if_neg hq, lookupTok]
      by_cases hqs : q = s
      · simp [hqs]
      · simp [hqs, lookupTok_assocAdd_ne h rest n]

lemma update_metrics_token_usage (st : MigrationState) (step : String)
    (duration : ℤ) (tokens : Nat) :
    (update_metrics st step duration tokens).token_usage =
      assocAdd st.token_usage step tokens := by
  rw [update_metrics]
  split_ifs <;> rfl

lemma update_best_result_token_usage (st : MigrationState)
    (v : VerificationResult) (r t : String) :
    (update_best_result st v r t).token_usage = st.token_usage := by
  rw [update_best_result]
  split_ifs <;> rfl

lemma applyEvent_lookupTok {s : String} (ev : AgentEvent)
    (st : MigrationState) (h : ev.stepName ≠ some s) :
    lookupTok (applyEvent st ev).token_usage s =
      lookupTok st.token_usage s := by
  cases ev with
  | metrics k d t =>
    have hk : k ≠ s := by
      intro hh
      exact h (by rw [AgentEvent.stepName, hh])
    rw [applyEvent, update_metrics_token_usage]
    exact lookupTok_assocAdd_ne hk st.token_usage t
  | best v r t =>
    rw [applyEvent, update_best_result_token_usage]

lemma foldl_applyEvent_lookupTok {s : String} :
    ∀ (evs : List AgentEvent) (st : MigrationState),
      (∀ ev ∈ evs, ev.stepName ≠ some s) →
      lookupTok (evs.foldl applyEvent st).token_usage s =
        lookupTok st.token_usage s
  | [], st, _ => rfl
  | ev :: rest, st, h => by
    rw [List.foldl_cons]
    rw [foldl_applyEvent_lookupTok rest (applyEvent st ev)
      (fun e he => h e (List.mem_cons_of_mem _ he))]
    exact applyEvent_lookupTok ev st (h ev (List.mem_cons_self _ _))

/-- C9 counterexample: the agent's state is created in `__init__` only;
after a first `migrate()` call that recorded token usage for the
`analysis` step, a second `migrate()` call still observes that entry
(a per-call reinitialization would start it from the empty ledger). -/
theorem migrate_state_not_reinitialized :
    (migrate (migrate MigrationAgent.mk0
        [AgentEvent.metrics "analysis" 1 5]) []).state.token_usage =
      [("analysis", 5)] ∧
    ([("analysis", 5)] : List (String × Nat)) ≠ [] :=
  ⟨by decide, by decide⟩

/-- C9 amended: `MigrationState` is created once in the agent
constructor and `migrate()` never reassigns it, so a second `migrate()`
call continues from the first call's final state: any token-usage entry
the second run's events do not touch is observed unchanged from the end
of the first run. -/
theorem migrate_state_persists_across_calls (a : MigrationAgent)
    (evs1 evs2 : List AgentEvent) (s : String)
    (h : ∀ ev ∈ evs2, ev.stepName ≠ some s) :
    lookupTok (migrate (migrate a evs1) evs2).state.token_usage s =
      lookupTok (migrate a evs1).state.token_usage s := by
  rw [migrate, migrate]
  exact foldl_applyEvent_lookupTok evs2 (evs1.foldl applyEvent a.state) h

/-- C9 witness: the `analysis` usage recorded by the first call is still
visible after a second call that only records `generation` usage. -/
theorem migrate_state_persists_across_calls_witness :
    (∀ ev ∈ [AgentEvent.metrics "generation" 2 7],
      ev.stepName ≠ some "analysis") ∧
    lookupTok (migrate (migrate MigrationAgent.mk0
        [AgentEvent.metrics "analysis" 1 5])
        [AgentEvent.metrics "generation" 2 7]).state.token_usage "analysis" =
      lookupTok (migrate MigrationAgent.mk0
        [AgentEvent.metrics "analysis" 1 5]).state.token_usage "analysis" :=
  ⟨by decide,
   migrate_state_persists_across_calls MigrationAgent.mk0
     [AgentEvent.metrics "analysis" 1 5]
     [AgentEvent.metrics "generation" 2 7] "analysis" (by decide)⟩

end Python2Rust
